import Mathlib

/-!
# Verification of `website/addons/osfstorage/utils.py`

A shallow embedding of the helper functions in the osfstorage addon's
`utils.py`, together with theorems settling the specification's claims about
them.  Python dictionaries of query arguments become association lists,
`furl` URL objects become a `Url` structure, the session store becomes an
explicit list of `Session` records threaded through the functions, and the
`itsdangerous` signer becomes an executable sign/unsign pair over strings.
-/

/-- A Python value as it appears among URL query arguments: a string, an
integer, or `None` (the cookie can be `None` when the inbound request carries
no cookie). -/
inductive PyVal where
  | str : String → PyVal
  | num : Nat → PyVal
  | noneV : PyVal
  deriving DecidableEq, Repr

/-- Embeds a `furl.furl` URL object: scheme, host, optional port, path
segments, query arguments (an ordered key/value map, as in `furl`'s
`omdict`), and fragment. -/
structure Url where
  scheme : String
  host : String
  port : Option Nat
  pathSegments : List String
  args : List (String × PyVal)
  fragment : String
  deriving DecidableEq, Repr

/-- Modelled from the spec: the osfstorage addon settings module
(`website.addons.osfstorage.settings`) is not under `src/`; the spec calls
`DOMAIN` "the configured canonical domain". -/
structure StorageSettings where
  DOMAIN : String
  deriving DecidableEq, Repr

/-- Modelled from the spec: the site settings module (`website.settings`) is
not under `src/`; the spec names a secret signing key, a cookie name and a
storage-service base URL, all read from process-wide configuration. -/
structure SiteSettings where
  SECRET_KEY : String
  COOKIE_NAME : String
  WATERBUTLER_URL : Url
  deriving DecidableEq, Repr

/-- Embeds `patch_url`, specialised to the only override this module ever
passes (`host=...`): parse, set the attribute, re-serialise. -/
def patch_url (url : Url) (host : String) : Url :=
  { url with host := host }

/-- Embeds `ensure_domain`: force the host to the configured canonical
domain. -/
def ensure_domain (settings : StorageSettings) (url : Url) : Url :=
  patch_url url settings.DOMAIN

/-- Modelled from the spec: an authorization context ("consolidated auth")
whose structure this module never inspects; it is only handed to the node's
own permission checks. -/
structure Auth where
  userId : Option String
  deriving DecidableEq, Repr

/-- Embeds the node objects this module consumes: id, canonical and API
URLs, permission checks, registration flag, and named-API-route resolution
(`api_url_for(name, path=path)`). The method implementations live outside
this file's source, so they are carried as function-valued fields. -/
structure Node where
  _id : String
  url : String
  api_url : String
  can_edit : Auth → Bool
  can_view : Auth → Bool
  is_registration : Bool
  api_url_for : String → String → Url

/-- Embeds `get_permissions`' result dictionary. -/
structure Permissions where
  edit : Bool
  view : Bool
  deriving DecidableEq, Repr

/-- Embeds `get_permissions`. -/
def get_permissions (auth : Auth) (node : Node) : Permissions :=
  { edit := node.can_edit auth && !node.is_registration
    view := node.can_view auth }

/-- Embeds a `FileVersion`: the module reads only `date_created.isoformat()`
(carried here as the ISO-8601 string it produces) and `location_hash`. -/
structure FileVersion where
  date_created : String
  location_hash : String
  deriving DecidableEq, Repr

/-- Embeds an `OsfStorageFileRecord`: name, path, extension, the ordered
version list, the owning node, and the persisted download counter read by
`get_download_count()`. -/
structure OsfStorageFileRecord where
  name : String
  path : String
  extension : String
  versions : List FileVersion
  node : Node
  download_count : Nat

/-- Embeds an `OsfStorageFileTree` (folder): name, path, extension and the
download-count accessor, the attributes `serialize_metadata_hgrid` reads. -/
structure OsfStorageFileTree where
  name : String
  path : String
  extension : String
  download_count : Nat
  deriving DecidableEq, Repr

/-- An object of some other type handed to `serialize_metadata_hgrid`: it
duck-types the read attributes but is neither a file tree nor a file record,
so `get_item_kind` rejects it. -/
structure OtherItem where
  name : String
  path : String
  extension : String
  download_count : Nat
  deriving DecidableEq, Repr

/-- The possible runtime types of the `item` argument, dispatched on by
`isinstance` in `get_item_kind`. -/
inductive StorageItem where
  | fileTree : OsfStorageFileTree → StorageItem
  | fileRecord : OsfStorageFileRecord → StorageItem
  | other : OtherItem → StorageItem

/-- Modelled from the spec: `website.util.rubeus` is not under `src/`; the
spec calls this the folder kind tag. -/
def rubeus_FOLDER : String := "folder"

/-- Modelled from the spec: the file kind tag from `website.util.rubeus`. -/
def rubeus_FILE : String := "file"

/-- `item.path` across the three runtime types. -/
def itemPath : StorageItem → String
  | .fileTree t => t.path
  | .fileRecord r => r.path
  | .other o => o.path

/-- `item.name` across the three runtime types. -/
def itemName : StorageItem → String
  | .fileTree t => t.name
  | .fileRecord r => r.name
  | .other o => o.name

/-- `item.extension` across the three runtime types. -/
def itemExtension : StorageItem → String
  | .fileTree t => t.extension
  | .fileRecord r => r.extension
  | .other o => o.extension

/-- `item.get_download_count()` across the three runtime types. -/
def itemDownloads : StorageItem → Nat
  | .fileTree t => t.download_count
  | .fileRecord r => r.download_count
  | .other o => o.download_count

/-- Embeds `get_item_kind`: folder tag for file trees, file tag for file
records, `TypeError` for anything else. -/
def get_item_kind : StorageItem → Except String String
  | .fileTree _ => .ok rubeus_FOLDER
  | .fileRecord _ => .ok rubeus_FILE
  | .other _ => .error "Value must be instance of FileTree or FileRecord"

/-- Embeds the dictionary built by `serialize_metadata_hgrid` (the
`rubeus.KIND` key is the `kind` field). -/
structure HgridEntry where
  path : String
  name : String
  ext : String
  kind : String
  nodeUrl : String
  nodeApiUrl : String
  downloads : Nat

/-- Embeds `serialize_metadata_hgrid`: build the HGrid dictionary, letting
the `TypeError` from `get_item_kind` propagate. -/
def serialize_metadata_hgrid (item : StorageItem) (node : Node) :
    Except String HgridEntry :=
  match get_item_kind item with
  | .error e => .error e
  | .ok kind =>
      .ok { path := itemPath item
            name := itemName item
            ext := itemExtension item
            kind := kind
            nodeUrl := node.url
            nodeApiUrl := node.api_url
            downloads := itemDownloads item }

/-- Split a character list at the LAST occurrence of `c`: returns
`some (pre, post)` with `l = pre ++ c :: post` and `c ∉ post`, or `none`
when `c` does not occur. Used to embed the `rfind` calls inside
`os.path.splitext`. -/
def breakLast (c : Char) : List Char → Option (List Char × List Char)
  | [] => none
  | x :: xs =>
    match breakLast c xs with
    | some (pre, post) => some (x :: pre, post)
    | none => if x = c then some ([], xs) else none

/-- Embeds `os.path.splitext` (posixpath variant): find the last `/` and the
last `.`; if the last dot lies inside the basename and some non-dot
character precedes it there, split at that dot, else return the whole name
with an empty extension. -/
def splitext (p : String) : String × String :=
  let cs := p.toList
  let db : List Char × List Char :=
    match breakLast '/' cs with
    | none => ([], cs)
    | some (pre, b) => (pre ++ ['/'], b)
  match breakLast '.' db.2 with
  | none => (p, "")
  | some (stem, extChars) =>
      if stem.any (fun ch => ch ≠ '.') then
        (String.mk (db.1 ++ stem), String.mk ('.' :: extChars))
      else (p, "")

/-- Embeds `get_filename`: plain record name for the latest version (index
equal to the version count), otherwise stem, hyphen, the version's ISO
creation timestamp, and the extension. -/
def get_filename (version_idx : Nat) (file_version : FileVersion)
    (file_record : OsfStorageFileRecord) : String :=
  if version_idx = file_record.versions.length then file_record.name
  else
    (splitext file_record.name).1 ++ "-" ++ file_version.date_created ++
      (splitext file_record.name).2

/-- Embeds the user objects consumed here: id, username and full name. -/
structure User where
  _id : String
  username : String
  fullname : String
  deriving DecidableEq, Repr

/-- Embeds a persisted `Session` record: its id, its modification time (an
abstract clock value), and the `data` fields this module reads and writes. -/
structure Session where
  _id : String
  date_modified : Nat
  auth_user_id : String
  auth_user_username : String
  auth_user_fullname : String
  deriving DecidableEq, Repr

/-- Embeds `sessions.sort('-date_modified')` followed by `sessions[0]`: the
head of the list sorted descending by `date_modified` (stable, so the
earliest-listed among ties wins). -/
def latestSession : List Session → Option Session
  | [] => none
  | s :: rest =>
    match latestSession rest with
    | none => some s
    | some t => if t.date_modified > s.date_modified then some t else some s

/-- Sixteen signature characters; none of them is the signer's separator. -/
def SIG_ALPHABET : List Char :=
  ['a', 'b', 'c', 'd', 'e', 'f', 'g', 'h', 'i', 'j', 'k', 'l', 'm', 'n', 'o', 'p']

/-- One character of the rendered digest. -/
def sigChar (n : Nat) : Char := SIG_ALPHABET.getD (n % 16) 'a'

/-- A deterministic digest of `secret ++ value`, standing in for the HMAC
inside `itsdangerous.Signer`; the claims rely only on its determinism and on
its rendering never containing the separator. -/
def macNat (secret value : String) : Nat :=
  (secret ++ value).foldl (fun h c => (h * 31 + c.toNat) % 1000000007) 7

/-- Render the digest as eight separator-free characters. -/
def macString (secret value : String) : String :=
  String.mk ((List.range 8).map (fun i => sigChar (macNat secret value / 16 ^ i)))

/-- Embeds `itsdangerous.Signer(SECRET_KEY).sign(value)`: the value, the
separator, and the digest of the value under the secret. -/
def signerSign (secret value : String) : String :=
  value ++ "." ++ macString secret value

/-- Embeds `Signer.unsign`: split at the last separator and check the
digest; `none` models `BadSignature`. -/
def signerUnsign (secret signed : String) : Option String :=
  match breakLast '.' signed.toList with
  | none => none
  | some (pre, post) =>
      if String.mk post = macString secret (String.mk pre) then
        some (String.mk pre)
      else
        none

/-- Embeds `get_cookie_for_user`, with the session store passed and returned
explicitly and the ODM's fresh object id and clock passed in: reuse the most
recently modified persisted session for the user if one exists, else create
and save a new session carrying the user's id, username and full name; sign
the chosen session's id with the site secret. -/
def get_cookie_for_user (site : SiteSettings) (user : User) (freshId : String)
    (now : Nat) (store : List Session) : String × List Session :=
  match latestSession (store.filter (fun s => s.auth_user_id == user._id)) with
  | some s => (signerSign site.SECRET_KEY s._id, store)
  | none =>
      (signerSign site.SECRET_KEY freshId,
        store ++ [{ _id := freshId
                    date_modified := now
                    auth_user_id := user._id
                    auth_user_username := user.username
                    auth_user_fullname := user.fullname }])

/-- Embeds `omdict.update` for a single key: replace the first binding for
the key (dropping later duplicates), or append a new binding. -/
def setArg : List (String × PyVal) → String → PyVal → List (String × PyVal)
  | [], k, v => [(k, v)]
  | p :: rest, k, v =>
    if p.1 == k then (k, v) :: rest.filter (fun q => !(q.1 == k))
    else p :: setArg rest k v

/-- Embeds `url.args.update(d)`: apply `setArg` for each binding of `d`. -/
def argsUpdate (args updates : List (String × PyVal)) : List (String × PyVal) :=
  updates.foldl (fun acc kv => setArg acc kv.1 kv.2) args

/-- The first value bound to `k` among the query arguments. -/
def lookupArg (args : List (String × PyVal)) (k : String) : Option PyVal :=
  (args.find? (fun p => p.1 == k)).map (fun p => p.2)

/-- The cookie chosen inside `get_waterbutler_url`: a freshly signed session
cookie when a user is given, else whatever cookie the inbound request
carries under the configured cookie name (`None` when absent), together
with the resulting session store. -/
def waterbutler_cookie (site : SiteSettings) (user : Option User)
    (requestCookies : List (String × String)) (freshId : String) (now : Nat)
    (store : List Session) : PyVal × List Session :=
  match user with
  | some u =>
      let r := get_cookie_for_user site u freshId now store
      (PyVal.str r.1, r.2)
  | none =>
      match requestCookies.find? (fun p => p.1 == site.COOKIE_NAME) with
      | some p => (PyVal.str p.2, store)
      | none => (PyVal.noneV, store)

/-- Embeds `get_waterbutler_url`: extend the storage-service base URL's path
with the given segments, set the default arguments (empty token, fixed
provider identifier, resolved cookie), then merge the caller's query on
top. -/
def get_waterbutler_url (site : SiteSettings) (user : Option User)
    (requestCookies : List (String × String)) (freshId : String) (now : Nat)
    (store : List Session) (path : List String)
    (query : List (String × PyVal)) : Url × List Session :=
  let url := site.WATERBUTLER_URL
  let ck := waterbutler_cookie site user requestCookies freshId now store
  let args1 := argsUpdate url.args
    [("token", PyVal.str ""), ("provider", PyVal.str "osfstorage"),
     ("cookie", ck.1)]
  let args2 := argsUpdate args1 query
  ({ url with pathSegments := url.pathSegments ++ path, args := args2 }, ck.2)

/-- Embeds `get_waterbutler_download_url`: fix the path segment to `file`
and supply the owning node's id, the target path, the display filename from
`get_filename`, and the version index. -/
def get_waterbutler_download_url (site : SiteSettings) (version_idx : Nat)
    (file_version : FileVersion) (file_record : OsfStorageFileRecord)
    (user : Option User) (query : List (String × PyVal))
    (requestCookies : List (String × String)) (freshId : String) (now : Nat)
    (store : List Session) : Url × List Session :=
  let nid := file_record.node._id
  let display_name := get_filename version_idx file_version file_record
  get_waterbutler_url site user requestCookies freshId now store ["file"]
    ([("nid", PyVal.str nid),
      ("path", PyVal.str ("/" ++ file_record.name)),
      ("displayName", PyVal.str display_name),
      ("version", PyVal.num version_idx)] ++ query)

/-- Embeds `get_waterbutler_upload_url`: fix the path segment to `file` and
supply the node's id and the target path. -/
def get_waterbutler_upload_url (site : SiteSettings) (user : Option User)
    (node : Node) (path : String) (query : List (String × PyVal))
    (requestCookies : List (String × String)) (freshId : String) (now : Nat)
    (store : List Session) : Url × List Session :=
  get_waterbutler_url site user requestCookies freshId now store ["file"]
    ([("nid", PyVal.str node._id), ("path", PyVal.str path)] ++ query)

/-- Embeds `build_callback_urls`: resolve five named API routes with the
path as parameter and domain-normalize each. -/
def build_callback_urls (settings : StorageSettings) (node : Node)
    (path : String) : List (String × Url) :=
  let start_url := node.api_url_for "osf_storage_upload_start_hook" path
  let finish_url := node.api_url_for "osf_storage_upload_finish_hook" path
  let cached_url := node.api_url_for "osf_storage_upload_cached_hook" path
  let ping_url := node.api_url_for "osf_storage_upload_ping_hook" path
  let archive_url := node.api_url_for "osf_storage_upload_archived_hook" path
  [("startUrl", ensure_domain settings start_url),
   ("finishUrl", ensure_domain settings finish_url),
   ("cachedUrl", ensure_domain settings cached_url),
   ("pingUrl", ensure_domain settings ping_url),
   ("archiveUrl", ensure_domain settings archive_url)]

/-- A concrete node used to evaluate the claims on worked examples. -/
def exampleNode : Node :=
  { _id := "abc12"
    url := "/abc12/"
    api_url := "/api/v1/project/abc12/"
    can_edit := fun _ => true
    can_view := fun _ => true
    is_registration := false
    api_url_for := fun route p =>
      { scheme := "http"
        host := "internal.host"
        port := some 5000
        pathSegments := ["api", "v1", "project", "abc12", route, p]
        args := []
        fragment := "" } }

/-- First version of the spec's worked example file. -/
def exampleVersion1 : FileVersion :=
  { date_created := "2021-01-01T00:00:00", location_hash := "hash1" }

/-- Second version of the spec's worked example file. -/
def exampleVersion2 : FileVersion :=
  { date_created := "2021-01-05T00:00:00", location_hash := "hash2" }

/-- Third version of the spec's worked example file. -/
def exampleVersion3 : FileVersion :=
  { date_created := "2021-01-09T00:00:00", location_hash := "hash3" }

/-- The spec's worked example record: `report.docx` with three versions. -/
def exampleRecord : OsfStorageFileRecord :=
  { name := "report.docx"
    path := "/report.docx"
    extension := ".docx"
    versions := [exampleVersion1, exampleVersion2, exampleVersion3]
    node := exampleNode
    download_count := 0 }

/-- Concrete site settings used by the witnesses. -/
def exampleSite : SiteSettings :=
  { SECRET_KEY := "s3cret"
    COOKIE_NAME := "osf"
    WATERBUTLER_URL :=
      { scheme := "http"
        host := "localhost"
        port := some 7777
        pathSegments := []
        args := []
        fragment := "" } }

/-- Concrete addon settings used by the witnesses. -/
def exampleStorage : StorageSettings := { DOMAIN := "osf.io" }

/-- A concrete user used by the witnesses. -/
def exampleUser : User :=
  { _id := "user1", username := "user1@example.org", fullname := "User One" }

theorem breakLast_eq_none {c : Char} : ∀ {l : List Char},
    breakLast c l = none → c ∉ l := by
  intro l
  induction l with
  | nil => intro _; simp
  | cons x xs ih =>
      intro h
      simp only [breakLast] at h
      cases hxs : breakLast c xs with
      | some q =>
          obtain ⟨pre, post⟩ := q
          rw [hxs] at h
          simp at h
      | none =>
          rw [hxs] at h
          by_cases hx : x = c
          · rw [if_pos hx] at h; simp at h
          · intro hmem
            rcases List.mem_cons.mp hmem with h1 | h2
            · exact hx h1.symm
            · exact ih hxs h2

theorem breakLast_eq_some {c : Char} : ∀ {l pre post : List Char},
    breakLast c l = some (pre, post) → l = pre ++ c :: post ∧ c ∉ post := by
  intro l
  induction l with
  | nil => intro pre post h; simp [breakLast] at h
  | cons x xs ih =>
      intro pre post h
      simp only [breakLast] at h
      cases hxs : breakLast c xs with
      | some q =>
          rw [hxs] at h
          obtain ⟨pre', post'⟩ := q
          simp only [Option.some.injEq, Prod.mk.injEq] at h
          obtain ⟨h1, h2⟩ := h
          obtain ⟨hl, hnm⟩ := ih hxs
          subst h2
          rw [← h1, hl]
          exact ⟨rfl, hnm⟩
      | none =>
          rw [hxs] at h
          by_cases hx : x = c
          · rw [if_pos hx] at h
            simp only [Option.some.injEq, Prod.mk.injEq] at h
            obtain ⟨h1, h2⟩ := h
            subst h2
            rw [← h1, hx]
            exact ⟨rfl, breakLast_eq_none hxs⟩
          · rw [if_neg hx] at h
            simp at h

/-- The two pieces returned by `splitext` concatenate back to the input. -/
theorem splitext_append (p : String) : (splitext p).1 ++ (splitext p).2 = p := by
  obtain ⟨cs⟩ := p
  simp only [splitext]
  cases hsep : breakLast '/' (String.toList (String.mk cs)) with
  | none =>
      simp only [hsep]
      cases hdot : breakLast '.' (String.toList (String.mk cs)) with
      | none => exact String.append_empty _
      | some q =>
          obtain ⟨stem, extChars⟩ := q
          simp only [hdot]
          by_cases hany : stem.any (fun ch => ch ≠ '.')
          · obtain ⟨hl, _⟩ := breakLast_eq_some hdot
            simp only [if_pos hany]
            show String.mk ([] ++ stem) ++ String.mk ('.' :: extChars) = String.mk cs
            have hcs : cs = stem ++ '.' :: extChars := hl
            apply String.ext
            simp [String.data_append, hcs]
          · simp only [if_neg hany]
            exact String.append_empty _
  | some q =>
      obtain ⟨pre, base⟩ := q
      simp only [hsep]
      obtain ⟨hl1, _⟩ := breakLast_eq_some hsep
      have hcs : cs = pre ++ '/' :: base := hl1
      cases hdot : breakLast '.' base with
      | none => exact String.append_empty _
      | some q2 =>
          obtain ⟨stem, extChars⟩ := q2
          simp only [hdot]
          by_cases hany : stem.any (fun ch => ch ≠ '.')
          · obtain ⟨hl2, _⟩ := breakLast_eq_some hdot
            simp only [if_pos hany]
            show String.mk (pre ++ ['/'] ++ stem) ++ String.mk ('.' :: extChars) =
              String.mk cs
            apply String.ext
            simp [String.data_append, hcs, hl2]
          · simp only [if_neg hany]
            exact String.append_empty _

theorem string_mk_toList (s : String) : String.mk s.toList = s := by
  obtain ⟨d⟩ := s
  rfl

theorem breakLast_none_of_not_mem {c : Char} :
    ∀ {l : List Char}, c ∉ l → breakLast c l = none := by
  intro l
  induction l with
  | nil => intro _; rfl
  | cons x xs ih =>
      intro h
      have hx : x ≠ c := fun he => h (he ▸ List.mem_cons_self x xs)
      have hxs : c ∉ xs := fun hm => h (List.mem_cons_of_mem x hm)
      simp only [breakLast, ih hxs, if_neg hx]

theorem breakLast_append_last {c : Char} :
    ∀ (pre post : List Char), c ∉ post →
      breakLast c (pre ++ c :: post) = some (pre, post) := by
  intro pre
  induction pre with
  | nil =>
      intro post h
      simp [breakLast, breakLast_none_of_not_mem h]
  | cons x pre ih =>
      intro post h
      have hstep : breakLast c (x :: (pre ++ c :: post)) =
          match breakLast c (pre ++ c :: post) with
          | some (a, b) => some (x :: a, b)
          | none => if x = c then some ([], pre ++ c :: post) else none := rfl
      rw [List.cons_append, hstep, ih post h]

theorem sigChar_ne_sep (n : Nat) : sigChar n ≠ '.' := by
  have h16 : n % 16 < 16 := Nat.mod_lt _ (by norm_num)
  unfold sigChar
  generalize n % 16 = m at h16 ⊢
  interval_cases m <;> decide

theorem macString_no_sep (secret value : String) :
    '.' ∉ (macString secret value).toList := by
  intro hmem
  have : (macString secret value).toList =
      (List.range 8).map (fun i => sigChar (macNat secret value / 16 ^ i)) := rfl
  rw [this] at hmem
  obtain ⟨i, _, hi⟩ := List.mem_map.mp hmem
  exact sigChar_ne_sep _ hi

/-- Signing then unsigning recovers the signed value: the digest never
contains the separator, so the split at the last separator is exact. -/
theorem signerUnsign_signerSign (secret value : String) :
    signerUnsign secret (signerSign secret value) = some value := by
  have hdata : (signerSign secret value).toList =
      value.toList ++ '.' :: (macString secret value).toList := by
    show (value ++ "." ++ macString secret value).data =
      value.data ++ '.' :: (macString secret value).data
    rw [String.data_append, String.data_append]
    rw [show ("." : String).data = ['.'] from rfl, List.append_assoc]
    rfl
  unfold signerUnsign
  rw [hdata, breakLast_append_last _ _ (macString_no_sep secret value)]
  simp [string_mk_toList]

theorem latestSession_eq_none_iff {l : List Session} :
    latestSession l = none ↔ l = [] := by
  cases l with
  | nil => simp [latestSession]
  | cons s rest =>
      simp only [latestSession]
      cases latestSession rest with
      | none => simp
      | some t => by_cases h : t.date_modified > s.date_modified <;> simp [h]

theorem lookupArg_cons_self (q : String × PyVal) (rest : List (String × PyVal))
    (k : String) (h : q.1 = k) : lookupArg (q :: rest) k = some q.2 := by
  simp only [lookupArg]
  rw [List.find?_cons_of_pos _ (by simp [h])]
  rfl

theorem lookupArg_cons_of_ne (q : String × PyVal) (rest : List (String × PyVal))
    (k : String) (h : q.1 ≠ k) : lookupArg (q :: rest) k = lookupArg rest k := by
  simp only [lookupArg]
  rw [List.find?_cons_of_neg _ (by simp [h])]

theorem lookupArg_filter_ne (k k' : String) (h : k' ≠ k) :
    ∀ (rest : List (String × PyVal)),
      lookupArg (rest.filter (fun q => !(q.1 == k))) k' = lookupArg rest k' := by
  intro rest
  induction rest with
  | nil => rfl
  | cons q rest ih =>
      by_cases hq : q.1 = k
      · rw [List.filter_cons_of_neg (by simp [hq]), ih,
          lookupArg_cons_of_ne q rest k' (by rw [hq]; exact Ne.symm h)]
      · rw [List.filter_cons_of_pos (by simp [hq])]
        by_cases hk' : q.1 = k'
        · rw [lookupArg_cons_self q _ k' hk', lookupArg_cons_self q rest k' hk']
        · rw [lookupArg_cons_of_ne q _ k' hk',
            lookupArg_cons_of_ne q rest k' hk', ih]

theorem lookupArg_setArg_self (k : String) (v : PyVal) :
    ∀ (args : List (String × PyVal)), lookupArg (setArg args k v) k = some v := by
  intro args
  induction args with
  | nil =>
      rw [show setArg [] k v = [(k, v)] from rfl]
      exact lookupArg_cons_self (k, v) [] k rfl
  | cons p rest ih =>
      by_cases hp : p.1 = k
      · rw [show setArg (p :: rest) k v =
            (k, v) :: rest.filter (fun q => !(q.1 == k)) by simp [setArg, hp]]
        exact lookupArg_cons_self (k, v) _ k rfl
      · rw [show setArg (p :: rest) k v = p :: setArg rest k v by
            simp [setArg, hp]]
        rw [lookupArg_cons_of_ne p _ k hp]
        exact ih

theorem lookupArg_setArg_ne (k k' : String) (v : PyVal) (h : k' ≠ k) :
    ∀ (args : List (String × PyVal)),
      lookupArg (setArg args k v) k' = lookupArg args k' := by
  intro args
  induction args with
  | nil =>
      rw [show setArg [] k v = [(k, v)] from rfl]
      exact lookupArg_cons_of_ne (k, v) [] k' (Ne.symm h)
  | cons p rest ih =>
      by_cases hp : p.1 = k
      · rw [show setArg (p :: rest) k v =
            (k, v) :: rest.filter (fun q => !(q.1 == k)) by simp [setArg, hp]]
        rw [lookupArg_cons_of_ne (k, v) _ k' (Ne.symm h),
          lookupArg_filter_ne k k' h rest,
          lookupArg_cons_of_ne p rest k' (by rw [hp]; exact Ne.symm h)]
      · rw [show setArg (p :: rest) k v = p :: setArg rest k v by
            simp [setArg, hp]]
        by_cases hk' : p.1 = k'
        · rw [lookupArg_cons_self p _ k' hk', lookupArg_cons_self p rest k' hk']
        · rw [lookupArg_cons_of_ne p _ k' hk',
            lookupArg_cons_of_ne p rest k' hk', ih]

theorem lookupArg_argsUpdate_not_mem (k : String) :
    ∀ (updates args : List (String × PyVal)), k ∉ updates.map Prod.fst →
      lookupArg (argsUpdate args updates) k = lookupArg args k := by
  intro updates
  induction updates with
  | nil => intro args _; rfl
  | cons u rest ih =>
      intro args h
      have hk : k ≠ u.1 := by
        intro he
        exact h (by simp [he])
      have hrest : k ∉ rest.map Prod.fst := by
        intro hm
        exact h (by simp [hm])
      show lookupArg (argsUpdate (setArg args u.1 u.2) rest) k = lookupArg args k
      rw [ih _ hrest, lookupArg_setArg_ne u.1 k u.2 hk]

theorem lookupArg_argsUpdate_mem (k : String) (v : PyVal) :
    ∀ (updates args : List (String × PyVal)), (updates.map Prod.fst).Nodup →
      (k, v) ∈ updates → lookupArg (argsUpdate args updates) k = some v := by
  intro updates
  induction updates with
  | nil => intro args _ hmem; simp at hmem
  | cons u rest ih =>
      intro args hnodup hmem
      rw [List.map_cons] at hnodup
      have hparts := List.nodup_cons.mp hnodup
      rcases List.mem_cons.mp hmem with he | hm
      · have hk : k = u.1 := by rw [← he]
        have hv : v = u.2 := by rw [← he]
        show lookupArg (argsUpdate (setArg args u.1 u.2) rest) k = some v
        rw [hk, hv, lookupArg_argsUpdate_not_mem u.1 rest _ hparts.1]
        exact lookupArg_setArg_self u.1 u.2 _
      · exact ih _ hparts.2 hm

/-- C3: `ensure_domain(url)` returns a URL whose host equals the configured
canonical domain, regardless of the input URL's original host, and whose
path, query, and scheme are unchanged. -/
theorem ensure_domain_canonical_host (settings : StorageSettings) (url : Url) :
    (ensure_domain settings url).host = settings.DOMAIN ∧
    (ensure_domain settings url).pathSegments = url.pathSegments ∧
    (ensure_domain settings url).args = url.args ∧
    (ensure_domain settings url).scheme = url.scheme := by
  refine ⟨rfl, rfl, rfl, rfl⟩

/-- C10: `ensure_domain` replaces only the host component; every other URL
component — scheme, port (including a non-standard one), path segments,
query arguments and fragment — is left unchanged. -/
theorem ensure_domain_only_host (settings : StorageSettings) (url : Url) :
    (ensure_domain settings url).scheme = url.scheme ∧
    (ensure_domain settings url).port = url.port ∧
    (ensure_domain settings url).pathSegments = url.pathSegments ∧
    (ensure_domain settings url).args = url.args ∧
    (ensure_domain settings url).fragment = url.fragment := by
  refine ⟨rfl, rfl, rfl, rfl, rfl⟩

/-- C8: `get_permissions` grants `edit` exactly when the node grants edit
permission to the auth context and the node is not a registration, and
`view` equals the node's view-permission check. -/
theorem get_permissions_spec (auth : Auth) (node : Node) :
    ((get_permissions auth node).edit = true ↔
      node.can_edit auth = true ∧ node.is_registration = false) ∧
    (get_permissions auth node).view = node.can_view auth := by
  constructor
  · simp [get_permissions, Bool.and_eq_true, Bool.not_eq_true']
  · rfl

/-- C2: `serialize_metadata_hgrid` on a file-tree item returns a mapping
whose kind field is the folder tag, on a file-record item a mapping whose
kind field is the file tag, and on an item of any other type it raises a
type error. -/
theorem serialize_metadata_hgrid_kind (node : Node) :
    (∀ t, ∃ m, serialize_metadata_hgrid (.fileTree t) node = .ok m ∧
      m.kind = rubeus_FOLDER) ∧
    (∀ r, ∃ m, serialize_metadata_hgrid (.fileRecord r) node = .ok m ∧
      m.kind = rubeus_FILE) ∧
    (∀ o, ∃ e, serialize_metadata_hgrid (.other o) node = .error e) := by
  exact ⟨fun t => ⟨_, rfl, rfl⟩, fun r => ⟨_, rfl, rfl⟩, fun o => ⟨_, rfl⟩⟩

/-- C1: `get_filename(N, v, record)` returns `record.name` unchanged when
`N` equals the number of stored versions, and the concatenation of the
name's stem, a hyphen, the version's ISO-8601 creation timestamp, and the
name's extension when `N` is less than the number of stored versions. -/
theorem get_filename_spec (version_idx : Nat) (file_version : FileVersion)
    (file_record : OsfStorageFileRecord) :
    (version_idx = file_record.versions.length →
      get_filename version_idx file_version file_record = file_record.name) ∧
    (version_idx < file_record.versions.length →
      get_filename version_idx file_version file_record =
        (splitext file_record.name).1 ++ "-" ++ file_version.date_created ++
          (splitext file_record.name).2) := by
  constructor
  · intro h
    simp only [get_filename, if_pos h]
  · intro h
    simp only [get_filename, if_neg (Nat.ne_of_lt h)]

/-- Witness for C1 on the spec's worked example: three versions, second
created at 2021-01-05T00:00:00. -/
theorem get_filename_spec_witness :
    get_filename 3 exampleVersion3 exampleRecord = "report.docx" ∧
    get_filename 2 exampleVersion2 exampleRecord =
      "report-2021-01-05T00:00:00.docx" := by
  constructor
  · exact (get_filename_spec 3 exampleVersion3 exampleRecord).1 (by decide)
  · rw [(get_filename_spec 2 exampleVersion2 exampleRecord).2 (by decide)]
    rfl

/-- C9: for a one-based index strictly greater than the number of stored
versions, `get_filename` does not fail and does not return the plain name:
the latest branch is taken only on exact equality, so the dated filename is
built. -/
theorem get_filename_above_count (version_idx : Nat)
    (file_version : FileVersion) (file_record : OsfStorageFileRecord)
    (h : file_record.versions.length < version_idx) :
    get_filename version_idx file_version file_record =
      (splitext file_record.name).1 ++ "-" ++ file_version.date_created ++
        (splitext file_record.name).2 ∧
    get_filename version_idx file_version file_record ≠ file_record.name := by
  have heq : get_filename version_idx file_version file_record =
      (splitext file_record.name).1 ++ "-" ++ file_version.date_created ++
        (splitext file_record.name).2 := by
    simp only [get_filename, if_neg (Nat.ne_of_gt h)]
  refine ⟨heq, ?_⟩
  rw [heq]
  intro hcontra
  have hsp := splitext_append file_record.name
  have hlen := congrArg String.length hcontra
  have hlen2 := congrArg String.length hsp
  simp only [String.length_append] at hlen hlen2
  rw [show ("-" : String).length = 1 from rfl] at hlen
  omega

/-- Witness for C9: index 5 against a record with three stored versions. -/
theorem get_filename_above_count_witness :
    get_filename 5 exampleVersion2 exampleRecord =
      (splitext exampleRecord.name).1 ++ "-" ++
        exampleVersion2.date_created ++ (splitext exampleRecord.name).2 ∧
    get_filename 5 exampleVersion2 exampleRecord ≠ exampleRecord.name :=
  get_filename_above_count 5 exampleVersion2 exampleRecord (by decide)

/-- C4: two successive calls to `get_cookie_for_user` for the same user,
with no new session for that user created in between, return signatures
over the same session id (the most recently modified existing session is
reused rather than a new one created), and each returned value is a
signature of that session id verifiable against the process-wide secret
key. -/
theorem get_cookie_for_user_stable (site : SiteSettings) (user : User)
    (fid1 fid2 : String) (now1 now2 : Nat) (store : List Session) :
    ∃ sid : String,
      (get_cookie_for_user site user fid1 now1 store).1 =
        signerSign site.SECRET_KEY sid ∧
      (get_cookie_for_user site user fid2 now2
        (get_cookie_for_user site user fid1 now1 store).2).1 =
        signerSign site.SECRET_KEY sid ∧
      signerUnsign site.SECRET_KEY
        (get_cookie_for_user site user fid1 now1 store).1 = some sid ∧
      (∀ s, latestSession (store.filter
          (fun t => t.auth_user_id == user._id)) = some s →
        sid = s._id ∧
        (get_cookie_for_user site user fid1 now1 store).2 = store) := by
  cases hl : latestSession
      (store.filter (fun t => t.auth_user_id == user._id)) with
  | some s =>
      have h1 : get_cookie_for_user site user fid1 now1 store =
          (signerSign site.SECRET_KEY s._id, store) := by
        unfold get_cookie_for_user
        rw [hl]
      have h2 : get_cookie_for_user site user fid2 now2 store =
          (signerSign site.SECRET_KEY s._id, store) := by
        unfold get_cookie_for_user
        rw [hl]
      refine ⟨s._id, by simp [h1], by simp [h1, h2],
        by simp [h1, signerUnsign_signerSign], ?_⟩
      intro s' hs'
      have hss : s = s' := Option.some.inj hs'
      subst hss
      exact ⟨rfl, by simp [h1]⟩
  | none =>
      have hfilter : store.filter (fun t => t.auth_user_id == user._id) = [] :=
        latestSession_eq_none_iff.mp hl
      have h1 : get_cookie_for_user site user fid1 now1 store =
          (signerSign site.SECRET_KEY fid1,
           store ++ [⟨fid1, now1, user._id, user.username, user.fullname⟩]) := by
        unfold get_cookie_for_user
        rw [hl]
      have h2 : (store ++
          [(⟨fid1, now1, user._id, user.username, user.fullname⟩ :
            Session)]).filter (fun t => t.auth_user_id == user._id) =
          [⟨fid1, now1, user._id, user.username, user.fullname⟩] := by
        rw [List.filter_append, hfilter]
        simp
      have h3 : get_cookie_for_user site user fid2 now2
          (store ++ [⟨fid1, now1, user._id, user.username, user.fullname⟩]) =
          (signerSign site.SECRET_KEY fid1,
           store ++ [⟨fid1, now1, user._id, user.username, user.fullname⟩]) := by
        unfold get_cookie_for_user
        rw [h2]
        rfl
      refine ⟨fid1, by simp [h1], by simp [h1, h3],
        by simp [h1, signerUnsign_signerSign], ?_⟩
      intro s' hs'
      simp at hs'

/-- Witness for C4: a store already holding two sessions for the user; the
newer one (id sessA) is reused by both calls. -/
theorem get_cookie_for_user_stable_witness :
    ∃ sid : String,
      (get_cookie_for_user exampleSite exampleUser "fresh1" 10
        [⟨"sessA", 5, "user1", "user1@example.org", "User One"⟩,
         ⟨"sessB", 3, "user1", "user1@example.org", "User One"⟩]).1 =
        signerSign exampleSite.SECRET_KEY sid ∧
      (get_cookie_for_user exampleSite exampleUser "fresh2" 11
        (get_cookie_for_user exampleSite exampleUser "fresh1" 10
          [⟨"sessA", 5, "user1", "user1@example.org", "User One"⟩,
           ⟨"sessB", 3, "user1", "user1@example.org", "User One"⟩]).2).1 =
        signerSign exampleSite.SECRET_KEY sid ∧
      signerUnsign exampleSite.SECRET_KEY
        (get_cookie_for_user exampleSite exampleUser "fresh1" 10
          [⟨"sessA", 5, "user1", "user1@example.org", "User One"⟩,
           ⟨"sessB", 3, "user1", "user1@example.org", "User One"⟩]).1 =
        some sid ∧
      (∀ s, latestSession
          (([⟨"sessA", 5, "user1", "user1@example.org", "User One"⟩,
             ⟨"sessB", 3, "user1", "user1@example.org", "User One"⟩] :
            List Session).filter
            (fun t => t.auth_user_id == exampleUser._id)) = some s →
        sid = s._id ∧
        (get_cookie_for_user exampleSite exampleUser "fresh1" 10
          [⟨"sessA", 5, "user1", "user1@example.org", "User One"⟩,
           ⟨"sessB", 3, "user1", "user1@example.org", "User One"⟩]).2 =
          [⟨"sessA", 5, "user1", "user1@example.org", "User One"⟩,
           ⟨"sessB", 3, "user1", "user1@example.org", "User One"⟩]) :=
  get_cookie_for_user_stable exampleSite exampleUser "fresh1" "fresh2" 10 11
    [⟨"sessA", 5, "user1", "user1@example.org", "User One"⟩,
     ⟨"sessB", 3, "user1", "user1@example.org", "User One"⟩]

/-- C5: the URL returned by `get_waterbutler_url` carries query arguments
token set to the empty string, provider set to osfstorage, and the resolved
cookie (fresh signed session cookie for an explicit user, else the inbound
request's cookie), except that caller-supplied query parameters with the
same key override the defaults. -/
theorem get_waterbutler_url_args (site : SiteSettings) (user : Option User)
    (requestCookies : List (String × String)) (freshId : String) (now : Nat)
    (store : List Session) (path : List String)
    (query : List (String × PyVal)) :
    ("token" ∉ query.map Prod.fst →
      lookupArg (get_waterbutler_url site user requestCookies freshId now
        store path query).1.args "token" = some (PyVal.str "")) ∧
    ("provider" ∉ query.map Prod.fst →
      lookupArg (get_waterbutler_url site user requestCookies freshId now
        store path query).1.args "provider" =
        some (PyVal.str "osfstorage")) ∧
    ("cookie" ∉ query.map Prod.fst →
      lookupArg (get_waterbutler_url site user requestCookies freshId now
        store path query).1.args "cookie" =
        some (waterbutler_cookie site user requestCookies freshId now
          store).1) ∧
    ((query.map Prod.fst).Nodup → ∀ k v, (k, v) ∈ query →
      lookupArg (get_waterbutler_url site user requestCookies freshId now
        store path query).1.args k = some v) := by
  have hargs : (get_waterbutler_url site user requestCookies freshId now
      store path query).1.args =
      argsUpdate (argsUpdate site.WATERBUTLER_URL.args
        [("token", PyVal.str ""), ("provider", PyVal.str "osfstorage"),
         ("cookie", (waterbutler_cookie site user requestCookies freshId now
           store).1)]) query := rfl
  have hnodup : (([("token", PyVal.str ""),
      ("provider", PyVal.str "osfstorage"),
      ("cookie", (waterbutler_cookie site user requestCookies freshId now
        store).1)] : List (String × PyVal)).map Prod.fst).Nodup := by
    simp
  refine ⟨?_, ?_, ?_, ?_⟩
  · intro h
    rw [hargs, lookupArg_argsUpdate_not_mem _ _ _ h,
      lookupArg_argsUpdate_mem "token" (PyVal.str "") _ _ hnodup (by simp)]
  · intro h
    rw [hargs, lookupArg_argsUpdate_not_mem _ _ _ h,
      lookupArg_argsUpdate_mem "provider" (PyVal.str "osfstorage") _ _
        hnodup (by simp)]
  · intro h
    rw [hargs, lookupArg_argsUpdate_not_mem _ _ _ h,
      lookupArg_argsUpdate_mem "cookie"
        ((waterbutler_cookie site user requestCookies freshId now store).1)
        _ _ hnodup (by simp)]
  · intro hn k v hm
    rw [hargs, lookupArg_argsUpdate_mem k v _ _ hn hm]

/-- Witness for C5: anonymous user (ambient request cookie) and one caller
query parameter. -/
theorem get_waterbutler_url_args_witness :
    lookupArg (get_waterbutler_url exampleSite none [("osf", "abc")] "sid1" 0
      [] ["file"] [("mode", PyVal.str "render")]).1.args "token" =
      some (PyVal.str "") ∧
    lookupArg (get_waterbutler_url exampleSite none [("osf", "abc")] "sid1" 0
      [] ["file"] [("mode", PyVal.str "render")]).1.args "provider" =
      some (PyVal.str "osfstorage") ∧
    lookupArg (get_waterbutler_url exampleSite none [("osf", "abc")] "sid1" 0
      [] ["file"] [("mode", PyVal.str "render")]).1.args "cookie" =
      some (PyVal.str "abc") ∧
    lookupArg (get_waterbutler_url exampleSite none [("osf", "abc")] "sid1" 0
      [] ["file"] [("mode", PyVal.str "render")]).1.args "mode" =
      some (PyVal.str "render") := by
  have h := get_waterbutler_url_args exampleSite none [("osf", "abc")] "sid1"
    0 [] ["file"] [("mode", PyVal.str "render")]
  refine ⟨h.1 (by decide), h.2.1 (by decide), ?_,
    h.2.2.2 (by decide) "mode" (PyVal.str "render") (by simp)⟩
  rw [h.2.2.1 (by decide)]
  rfl

/-- C6: `build_callback_urls` returns exactly the five keys startUrl,
finishUrl, cachedUrl, pingUrl and archiveUrl, each value the
domain-normalization (host set to the configured canonical domain) of a
distinct named API route resolved with the given path. -/
theorem build_callback_urls_spec (settings : StorageSettings) (node : Node)
    (path : String) :
    (build_callback_urls settings node path).map Prod.fst =
      ["startUrl", "finishUrl", "cachedUrl", "pingUrl", "archiveUrl"] ∧
    build_callback_urls settings node path =
      [("startUrl", ensure_domain settings
          (node.api_url_for "osf_storage_upload_start_hook" path)),
       ("finishUrl", ensure_domain settings
          (node.api_url_for "osf_storage_upload_finish_hook" path)),
       ("cachedUrl", ensure_domain settings
          (node.api_url_for "osf_storage_upload_cached_hook" path)),
       ("pingUrl", ensure_domain settings
          (node.api_url_for "osf_storage_upload_ping_hook" path)),
       ("archiveUrl", ensure_domain settings
          (node.api_url_for "osf_storage_upload_archived_hook" path))] ∧
    (["osf_storage_upload_start_hook", "osf_storage_upload_finish_hook",
      "osf_storage_upload_cached_hook", "osf_storage_upload_ping_hook",
      "osf_storage_upload_archived_hook"] : List String).Nodup ∧
    (∀ kv ∈ build_callback_urls settings node path,
      kv.2.host = settings.DOMAIN) := by
  refine ⟨rfl, rfl, by decide, ?_⟩
  intro kv hkv
  simp only [build_callback_urls, List.mem_cons, List.not_mem_nil,
    or_false] at hkv
  rcases hkv with h | h | h | h | h <;> subst h <;> rfl

/-- Witness for C6 at a concrete node and path. -/
theorem build_callback_urls_spec_witness :
    (build_callback_urls exampleStorage exampleNode "/p.txt").map Prod.fst =
      ["startUrl", "finishUrl", "cachedUrl", "pingUrl", "archiveUrl"] ∧
    build_callback_urls exampleStorage exampleNode "/p.txt" =
      [("startUrl", ensure_domain exampleStorage
          (exampleNode.api_url_for "osf_storage_upload_start_hook" "/p.txt")),
       ("finishUrl", ensure_domain exampleStorage
          (exampleNode.api_url_for "osf_storage_upload_finish_hook" "/p.txt")),
       ("cachedUrl", ensure_domain exampleStorage
          (exampleNode.api_url_for "osf_storage_upload_cached_hook" "/p.txt")),
       ("pingUrl", ensure_domain exampleStorage
          (exampleNode.api_url_for "osf_storage_upload_ping_hook" "/p.txt")),
       ("archiveUrl", ensure_domain exampleStorage
          (exampleNode.api_url_for "osf_storage_upload_archived_hook"
            "/p.txt"))] ∧
    (["osf_storage_upload_start_hook", "osf_storage_upload_finish_hook",
      "osf_storage_upload_cached_hook", "osf_storage_upload_ping_hook",
      "osf_storage_upload_archived_hook"] : List String).Nodup ∧
    (∀ kv ∈ build_callback_urls exampleStorage exampleNode "/p.txt",
      kv.2.host = exampleStorage.DOMAIN) :=
  build_callback_urls_spec exampleStorage exampleNode "/p.txt"

/-- C7: `get_waterbutler_download_url` fixes the URL path segment to file
and supplies as query parameters the owning node's id, the file's target
path, the display filename computed by `get_filename`, and the version
index; `get_waterbutler_upload_url` fixes the path segment to file and
supplies node id and target path. -/
theorem waterbutler_download_upload_urls (site : SiteSettings)
    (version_idx : Nat) (file_version : FileVersion)
    (file_record : OsfStorageFileRecord) (user : Option User)
    (query uquery : List (String × PyVal))
    (requestCookies : List (String × String)) (freshId : String) (now : Nat)
    (store : List Session) (node : Node) (upath : String)
    (hd : (["nid", "path", "displayName", "version"] ++
      query.map Prod.fst).Nodup)
    (hu : (["nid", "path"] ++ uquery.map Prod.fst).Nodup) :
    ((get_waterbutler_download_url site version_idx file_version file_record
        user query requestCookies freshId now store).1.pathSegments =
      site.WATERBUTLER_URL.pathSegments ++ ["file"] ∧
     lookupArg (get_waterbutler_download_url site version_idx file_version
        file_record user query requestCookies freshId now store).1.args
        "nid" = some (PyVal.str file_record.node._id) ∧
     lookupArg (get_waterbutler_download_url site version_idx file_version
        file_record user query requestCookies freshId now store).1.args
        "path" = some (PyVal.str ("/" ++ file_record.name)) ∧
     lookupArg (get_waterbutler_download_url site version_idx file_version
        file_record user query requestCookies freshId now store).1.args
        "displayName" =
        some (PyVal.str (get_filename version_idx file_version
          file_record)) ∧
     lookupArg (get_waterbutler_download_url site version_idx file_version
        file_record user query requestCookies freshId now store).1.args
        "version" = some (PyVal.num version_idx)) ∧
    ((get_waterbutler_upload_url site user node upath uquery requestCookies
        freshId now store).1.pathSegments =
      site.WATERBUTLER_URL.pathSegments ++ ["file"] ∧
     lookupArg (get_waterbutler_upload_url site user node upath uquery
        requestCookies freshId now store).1.args "nid" =
        some (PyVal.str node._id) ∧
     lookupArg (get_waterbutler_upload_url site user node upath uquery
        requestCookies freshId now store).1.args "path" =
        some (PyVal.str upath)) := by
  have hdn : (([("nid", PyVal.str file_record.node._id),
      ("path", PyVal.str ("/" ++ file_record.name)),
      ("displayName",
        PyVal.str (get_filename version_idx file_version file_record)),
      ("version", PyVal.num version_idx)] ++ query).map Prod.fst).Nodup := by
    simpa using hd
  have hun : (([("nid", PyVal.str node._id),
      ("path", PyVal.str upath)] ++ uquery).map Prod.fst).Nodup := by
    simpa using hu
  have hda : (get_waterbutler_download_url site version_idx file_version
      file_record user query requestCookies freshId now store).1.args =
      argsUpdate (argsUpdate site.WATERBUTLER_URL.args
        [("token", PyVal.str ""), ("provider", PyVal.str "osfstorage"),
         ("cookie", (waterbutler_cookie site user requestCookies freshId now
           store).1)])
        ([("nid", PyVal.str file_record.node._id),
          ("path", PyVal.str ("/" ++ file_record.name)),
          ("displayName",
            PyVal.str (get_filename version_idx file_version file_record)),
          ("version", PyVal.num version_idx)] ++ query) := rfl
  have hua : (get_waterbutler_upload_url site user node upath uquery
      requestCookies freshId now store).1.args =
      argsUpdate (argsUpdate site.WATERBUTLER_URL.args
        [("token", PyVal.str ""), ("provider", PyVal.str "osfstorage"),
         ("cookie", (waterbutler_cookie site user requestCookies freshId now
           store).1)])
        ([("nid", PyVal.str node._id),
          ("path", PyVal.str upath)] ++ uquery) := rfl
  refine ⟨⟨rfl, ?_, ?_, ?_, ?_⟩, rfl, ?_, ?_⟩
  · rw [hda, lookupArg_argsUpdate_mem "nid"
      (PyVal.str file_record.node._id) _ _ hdn (by simp)]
  · rw [hda, lookupArg_argsUpdate_mem "path"
      (PyVal.str ("/" ++ file_record.name)) _ _ hdn (by simp)]
  · rw [hda, lookupArg_argsUpdate_mem "displayName"
      (PyVal.str (get_filename version_idx file_version file_record)) _ _
      hdn (by simp)]
  · rw [hda, lookupArg_argsUpdate_mem "version"
      (PyVal.num version_idx) _ _ hdn (by simp)]
  · rw [hua, lookupArg_argsUpdate_mem "nid"
      (PyVal.str node._id) _ _ hun (by simp)]
  · rw [hua, lookupArg_argsUpdate_mem "path"
      (PyVal.str upath) _ _ hun (by simp)]

/-- Witness for C7 on the example record and node with empty caller
queries. -/
theorem waterbutler_download_upload_urls_witness :
    ((get_waterbutler_download_url exampleSite 2 exampleVersion2
        exampleRecord none [] [("osf", "abc")] "sid1" 0 []).1.pathSegments =
      exampleSite.WATERBUTLER_URL.pathSegments ++ ["file"] ∧
     lookupArg (get_waterbutler_download_url exampleSite 2 exampleVersion2
        exampleRecord none [] [("osf", "abc")] "sid1" 0 []).1.args "nid" =
        some (PyVal.str exampleRecord.node._id) ∧
     lookupArg (get_waterbutler_download_url exampleSite 2 exampleVersion2
        exampleRecord none [] [("osf", "abc")] "sid1" 0 []).1.args "path" =
        some (PyVal.str ("/" ++ exampleRecord.name)) ∧
     lookupArg (get_waterbutler_download_url exampleSite 2 exampleVersion2
        exampleRecord none [] [("osf", "abc")] "sid1" 0 []).1.args
        "displayName" =
        some (PyVal.str (get_filename 2 exampleVersion2 exampleRecord)) ∧
     lookupArg (get_waterbutler_download_url exampleSite 2 exampleVersion2
        exampleRecord none [] [("osf", "abc")] "sid1" 0 []).1.args
        "version" = some (PyVal.num 2)) ∧
    ((get_waterbutler_upload_url exampleSite none exampleNode "/report.docx"
        [] [("osf", "abc")] "sid1" 0 []).1.pathSegments =
      exampleSite.WATERBUTLER_URL.pathSegments ++ ["file"] ∧
     lookupArg (get_waterbutler_upload_url exampleSite none exampleNode
        "/report.docx" [] [("osf", "abc")] "sid1" 0 []).1.args "nid" =
        some (PyVal.str exampleNode._id) ∧
     lookupArg (get_waterbutler_upload_url exampleSite none exampleNode
        "/report.docx" [] [("osf", "abc")] "sid1" 0 []).1.args "path" =
        some (PyVal.str "/report.docx")) :=
  waterbutler_download_upload_urls exampleSite 2 exampleVersion2
    exampleRecord none [] [] [("osf", "abc")] "sid1" 0 [] exampleNode
    "/report.docx" (by decide) (by decide)
